import Mathlib

/-!
# httpdebugger: a debugging `http.RoundTripper`

Shallow embedding of `roundtripper.go` and a verification of its behaviour.

Modelling conventions.

* A Go `string` is a Lean `String` (well-formed UTF-8 text).
* `http.Header` (`map[string][]string`) is a list of its entries. Every `range`
  over the map visits the entries in an order of the runtime's choosing, which
  may differ from one `range` statement to the next: each of the three `range`
  statements of the package has its own `RangeOrder`.
* A nilable pointer or interface (`req.URL`, `*http.Response`, `error`, the
  delegate) is an `Option`; `none` is `nil`. The request pointer itself and the
  sink are not nil.
* A run-time panic (nil dereference) is the `Except.error` branch of a result.
* The sink (`io.Writer`) and the delegate (`http.RoundTripper`) are state
  machines over arbitrary state types; the decorator threads their states.
* `time.Duration` is an integer number of nanoseconds; the value read by
  `time.Since(startTime)` is supplied by the delegate transition.
-/

/-! ## Standard library: `strconv.Quote` and the `fmt` verbs in use -/

namespace strconv

/-- The digits of `strconv.lowerhex`. -/
def lowerhex : List Char := "0123456789abcdef".toList

/-- Indexing `lowerhex[n]` for a four-bit value `n`. -/
def hexDigit (n : Nat) : Char := lowerhex.getD (n % 16) '0'

/-- The function `strconv.IsPrint`: the Latin-1 fast path is spelled out, the
lookup of a rune above U+00FF in the Unicode tables `isPrint16`, `isNotPrint16`,
`isPrint32`, `isNotPrint32` is the parameter `tbl`. -/
def IsPrint (tbl : Char → Bool) (r : Char) : Bool :=
  if r.toNat ≤ 0xFF then
    if 0x20 ≤ r.toNat ∧ r.toNat ≤ 0x7E then true
    else if 0xA1 ≤ r.toNat ∧ r.toNat ≤ 0xFF then r.toNat != 0xAD
    else false
  else tbl r

/-- The function `strconv.appendEscapedRune` with `ASCIIonly = false` and
`graphicOnly = false`, the flags `strconv.Quote` passes. A Lean `Char` is always
a valid rune, so the `!utf8.ValidRune(r)` case does not arise. -/
def appendEscapedRune (tbl : Char → Bool) (buf : List Char) (r : Char) (quote : Char) :
    List Char :=
  if r = quote ∨ r = Char.ofNat 92 then buf ++ [Char.ofNat 92, r]
  else if IsPrint tbl r then buf ++ [r]
  else if r.toNat = 7 then buf ++ [Char.ofNat 92, 'a']
  else if r.toNat = 8 then buf ++ [Char.ofNat 92, 'b']
  else if r.toNat = 12 then buf ++ [Char.ofNat 92, 'f']
  else if r.toNat = 10 then buf ++ [Char.ofNat 92, 'n']
  else if r.toNat = 13 then buf ++ [Char.ofNat 92, 'r']
  else if r.toNat = 9 then buf ++ [Char.ofNat 92, 't']
  else if r.toNat = 11 then buf ++ [Char.ofNat 92, 'v']
  else if r.toNat < 0x20 ∨ r.toNat = 0x7f then
    buf ++ [Char.ofNat 92, 'x', hexDigit (r.toNat / 16), hexDigit (r.toNat % 16)]
  else if r.toNat < 0x10000 then
    buf ++ [Char.ofNat 92, 'u', hexDigit (r.toNat / 4096), hexDigit (r.toNat / 256),
      hexDigit (r.toNat / 16), hexDigit r.toNat]
  else
    buf ++ [Char.ofNat 92, 'U', hexDigit (r.toNat / 268435456), hexDigit (r.toNat / 16777216),
      hexDigit (r.toNat / 1048576), hexDigit (r.toNat / 65536), hexDigit (r.toNat / 4096),
      hexDigit (r.toNat / 256), hexDigit (r.toNat / 16), hexDigit r.toNat]

/-- The function `strconv.Quote` (`appendQuotedWith` with quote character `"`):
an opening quote, every rune through `appendEscapedRune`, a closing quote. -/
def Quote (tbl : Char → Bool) (s : String) : String :=
  ⟨(s.toList.foldl (fun buf r => appendEscapedRune tbl buf r (Char.ofNat 34)) [Char.ofNat 34])
    ++ [Char.ofNat 34]⟩

/-- What `strconv.Quote` writes for one rune: `appendEscapedRune` on an empty
buffer with the double quote as quote character. -/
def quoteRune (tbl : Char → Bool) (r : Char) : String :=
  ⟨appendEscapedRune tbl [] r (Char.ofNat 34)⟩

end strconv

namespace fmt

/-- The verb `%d` on an `int64`: decimal digits, with a leading minus sign for a
negative value. -/
def formatInt (n : Int) : String :=
  if n < 0 then "-" ++ Nat.repr n.natAbs else Nat.repr n.toNat

end fmt

/-! ## Collaborators: `net/http`, `io`, `time` -/

/-- A Go `error` value, identified by its message. -/
abbrev GoError := String

/-- A run-time panic. -/
inductive Panic where
  | nilPointerDereference
deriving DecidableEq, Repr

namespace time

/-- The type `time.Duration`: a count of nanoseconds. -/
abbrev Duration := Int

/-- The constant `time.Millisecond`. -/
def Millisecond : Duration := 1000000

end time

namespace http

/-- The type `http.Header`: the entries of the map, each key with its list of
values. -/
abbrev Header := List (String × List String)

/-- The fields of `http.Request` the decorator reads. `URL` is the nilable
pointer `*url.URL`; when it is not nil, the text is what `URL.String()`
renders. -/
structure Request where
  Method : String
  URL : Option String
  Header : http.Header
deriving DecidableEq, Repr

/-- The fields of `http.Response` the decorator reads, and the status code and
body that travel with it. -/
structure Response where
  Status : String
  StatusCode : Int
  Header : http.Header
  Body : String
deriving DecidableEq, Repr

/-- The interface `http.RoundTripper` over a transport with internal state `δ`:
one call consumes a request and yields the next transport state, the pair
`(response, err)` and the time the call took, as `time.Since` reads it. -/
structure RoundTripper (δ : Type) where
  RoundTrip : δ → Request → δ × Option Response × Option GoError × time.Duration

end http

namespace io

/-- The interface `io.Writer` over a sink with internal state `σ`: one `Write`
yields the next sink state, the byte count and the error. -/
structure Writer (σ : Type) where
  Write : σ → String → σ × Nat × Option GoError

end io

namespace fmt

/-- The call `fmt.Fprintf(w, ...)`, after formatting: a single `w.Write` of the
formatted text, whose `(n, err)` is passed on to the caller. -/
def Fprintf {σ : Type} (w : io.Writer σ) (s : σ) (text : String) : σ × Nat × Option GoError :=
  w.Write s text

end fmt

/-! ## The Go runtime: map iteration -/

/-- The order in which one `range` statement visits the entries of a header
map: some rearrangement of the entries, chosen by the runtime. -/
structure RangeOrder where
  visit : http.Header → http.Header
  perm : ∀ h, List.Perm (visit h) h

namespace RangeOrder

/-- The order that visits the entries as listed. -/
def listed : RangeOrder := ⟨fun h => h, fun h => List.Perm.refl h⟩

/-- The order that visits the entries last to first. -/
def reversed : RangeOrder := ⟨fun h => h.reverse, fun h => List.reverse_perm h⟩

end RangeOrder

/-- What the Go runtime and library contribute to one call: the Unicode tables
behind `strconv.IsPrint`, and the visiting order of each of the three `range`
statements over a header map: in `toCurl`, in the `RequestHeaders` block and in
the `ResponseHeaders` block. -/
structure Runtime where
  printTable : Char → Bool
  curlRange : RangeOrder
  requestRange : RangeOrder
  responseRange : RangeOrder

/-! ## The package `httpdebugger` -/

namespace httpdebugger

/-- The record `requestInfo`. -/
structure requestInfo where
  RequestHeaders : http.Header
  RequestVerb : String
  RequestURL : String
  ResponseStatus : String
  ResponseHeaders : http.Header
  ResponseErr : Option GoError
  Duration : time.Duration
deriving DecidableEq, Repr

/-- The constructor `newRequestInfo`. `req.URL.String()` dereferences `req.URL`
and panics when it is nil; otherwise the three request fields are set and the
rest keep their zero values. -/
def newRequestInfo (req : http.Request) : Except Panic requestInfo :=
  match req.URL with
  | none => .error Panic.nilPointerDereference
  | some url =>
    .ok { RequestURL := url
          RequestVerb := req.Method
          RequestHeaders := req.Header
          ResponseStatus := ""
          ResponseHeaders := []
          ResponseErr := none
          Duration := 0 }

/-- The method `requestInfo.complete`. With a non-nil error only the error is
stored; otherwise `response.Status` and `response.Header` are read, which
panics on a nil response. -/
def complete (r : requestInfo) (response : Option http.Response) (err : Option GoError) :
    Except Panic requestInfo :=
  match err with
  | some e => .ok { r with ResponseErr := some e }
  | none =>
    match response with
    | none => .error Panic.nilPointerDereference
    | some resp => .ok { r with ResponseStatus := resp.Status, ResponseHeaders := resp.Header }

/-- The loop of `toCurl` that accumulates `headers`, the outer `range` visiting
the map in the order `o`. -/
def curlHeaders (tbl : Char → Bool) (o : RangeOrder) (h : http.Header) : String :=
  (o.visit h).foldl (fun headers kv =>
    kv.2.foldl (fun headers value =>
      headers ++ (" -H " ++ strconv.Quote tbl (kv.1 ++ ": " ++ value))) headers) ""

/-- The method `requestInfo.toCurl`. -/
def toCurl (tbl : Char → Bool) (o : RangeOrder) (r : requestInfo) : String :=
  "curl -k -v -X" ++ r.RequestVerb ++ " " ++ curlHeaders tbl o r.RequestHeaders ++ " "
    ++ r.RequestURL

/-- The type `debugLevel`, an `int`. -/
abbrev debugLevel := Int

def JustURL : debugLevel := 0
def URLTiming : debugLevel := 1
def CurlCommand : debugLevel := 2
def RequestHeaders : debugLevel := 3
def ResponseStatus : debugLevel := 4
def ResponseHeaders : debugLevel := 5

/-- The struct `debuggingRoundTripper`. The `levels` map is read only through
lookups, which yield `false` for an absent key, so it is its lookup function. -/
structure debuggingRoundTripper (σ δ : Type) where
  delegatedRoundTripper : Option (http.RoundTripper δ)
  writer : io.Writer σ
  levels : debugLevel → Bool

/-- The assignment `m[v] = true` on a `map[debugLevel]bool`. -/
def setLevel (m : debugLevel → Bool) (v : debugLevel) : debugLevel → Bool :=
  fun k => if k = v then true else m k

/-- The constructor `NewDebuggingRoundTripper`: the map starts empty and every
supplied level is set to `true`. No argument is inspected. -/
def NewDebuggingRoundTripper {σ δ : Type} (rt : Option (http.RoundTripper δ)) (w : io.Writer σ)
    (levels : List debugLevel) : debuggingRoundTripper σ δ :=
  { delegatedRoundTripper := rt
    writer := w
    levels := levels.foldl setLevel (fun _ => false) }

/-- The nested `range` loops that print one header line per value, the outer
`range` visiting the map in the order `o`. -/
def writeHeaderLines {σ : Type} (w : io.Writer σ) (o : RangeOrder) (s : σ) (h : http.Header) :
    σ :=
  (o.visit h).foldl (fun s kv =>
    kv.2.foldl (fun s value =>
      (fmt.Fprintf w s ("    " ++ kv.1 ++ ": " ++ value ++ "\n")).1) s) s

/-- The number printed by `%d`: `Duration.Nanoseconds()/int64(time.Millisecond)`,
an `int64` division, which truncates toward zero. -/
def milliseconds (d : time.Duration) : Int := Int.tdiv d time.Millisecond

/-- The text of the `JustURL` line. -/
def justURLLine (r : requestInfo) : String :=
  r.RequestVerb ++ " " ++ r.RequestURL ++ "\n"

/-- The text of the `URLTiming` line. -/
def urlTimingLine (r : requestInfo) : String :=
  r.RequestVerb ++ " " ++ r.RequestURL ++ " " ++ r.ResponseStatus ++ " in "
    ++ fmt.formatInt (milliseconds r.Duration) ++ " milliseconds\n"

/-- The text of the `ResponseStatus` line. -/
def responseStatusLine (r : requestInfo) : String :=
  "Response Status: " ++ r.ResponseStatus ++ " in "
    ++ fmt.formatInt (milliseconds r.Duration) ++ " milliseconds\n"

/-- The statements of `RoundTrip` between `newRequestInfo` and the delegate
call. The `range` inside `toCurl` and the `range` of the `RequestHeaders` block
each visit the header map in their own order. -/
def emitRequest {σ : Type} (env : Runtime) (w : io.Writer σ) (levels : debugLevel → Bool)
    (s : σ) (reqInfo : requestInfo) : σ :=
  let s1 := if levels JustURL then (fmt.Fprintf w s (justURLLine reqInfo)).1 else s
  let s2 := if levels CurlCommand then
      (fmt.Fprintf w s1 (toCurl env.printTable env.curlRange reqInfo ++ "\n")).1 else s1
  if levels RequestHeaders then
    writeHeaderLines w env.requestRange (fmt.Fprintf w s2 "Request Headers:\n").1
      reqInfo.RequestHeaders
  else s2

/-- The statements of `RoundTrip` after `reqInfo.complete`. -/
def emitResponse {σ : Type} (env : Runtime) (w : io.Writer σ) (levels : debugLevel → Bool)
    (s : σ) (reqInfo : requestInfo) : σ :=
  let s1 := if levels URLTiming then (fmt.Fprintf w s (urlTimingLine reqInfo)).1 else s
  let s2 := if levels ResponseStatus then (fmt.Fprintf w s1 (responseStatusLine reqInfo)).1 else s1
  if levels ResponseHeaders then
    writeHeaderLines w env.responseRange (fmt.Fprintf w s2 "Response Headers:\n").1
      reqInfo.ResponseHeaders
  else s2

/-- What one call of `RoundTrip` leaves behind: the sink state reached before
the delegate call (the state at which the call ended, if it panicked before),
the final sink state, the final delegate state, and the returned pair or the
panic that ended the call. -/
structure Outcome (σ δ : Type) where
  sinkAtCall : σ
  sink : σ
  delegate : δ
  result : Except Panic (Option http.Response × Option GoError)

/-- The method `debuggingRoundTripper.RoundTrip`, run from sink state `s` and
delegate state `d`. `newRequestInfo` panics on a nil `req.URL`, before anything
is written and before the delegate is invoked; calling `RoundTrip` on a nil
delegate panics, and so does `complete` on a nil response with a nil error;
the results of `Fprintf` are dropped. -/
def RoundTrip {σ δ : Type} (env : Runtime) (rt : debuggingRoundTripper σ δ) (s : σ) (d : δ)
    (req : http.Request) : Outcome σ δ :=
  match newRequestInfo req with
  | .error p => ⟨s, s, d, .error p⟩
  | .ok reqInfo =>
    let s3 := emitRequest env rt.writer rt.levels s reqInfo
    match rt.delegatedRoundTripper with
    | none => ⟨s3, s3, d, .error Panic.nilPointerDereference⟩
    | some delegate =>
      match delegate.RoundTrip d req with
      | (d1, response, err, elapsed) =>
        match complete { reqInfo with Duration := elapsed } response err with
        | .error p => ⟨s3, s3, d1, .error p⟩
        | .ok info =>
          ⟨s3, emitResponse env rt.writer rt.levels s3 info, d1, .ok (response, err)⟩

/-! ### Terms of the specification -/

/-- The lines of a header block as the specification lists them: one
`"    <key>: <value>\n"` per value. -/
def headerLines (h : http.Header) : List String :=
  h.flatMap (fun kv => kv.2.map (fun value => "    " ++ kv.1 ++ ": " ++ value ++ "\n"))

/-- The flags of the curl command as `%q` renders them: per header value the
segment ` -H ` followed by the Go-quoted text `<key>: <value>`. -/
def quotedSegments (tbl : Char → Bool) (h : http.Header) : List String :=
  h.flatMap (fun kv => kv.2.map (fun value =>
    " -H " ++ strconv.Quote tbl (kv.1 ++ ": " ++ value)))

/-- The flags of the curl command as the specification words them: per header
value the segment ` -H "<key>: <value>"` with key and value copied verbatim. -/
def verbatimSegments (h : http.Header) : List String :=
  h.flatMap (fun kv => kv.2.map (fun value =>
    " -H " ++ "\"" ++ kv.1 ++ ": " ++ value ++ "\""))

/-- The `-H` tokens of the curl command without the space that leads each
segment: per header value `-H ` followed by the Go-quoted `<key>: <value>`. -/
def curlTokens (tbl : Char → Bool) (h : http.Header) : List String :=
  h.flatMap (fun kv => kv.2.map (fun value =>
    "-H " ++ strconv.Quote tbl (kv.1 ++ ": " ++ value)))

/-- The total number of header values of a header map. -/
def valueCount (h : http.Header) : Nat := (h.map (fun kv => kv.2.length)).sum

/-- A rune that `strconv.Quote` copies unchanged: printable and neither the
double quote nor the backslash. -/
def plainRune (tbl : Char → Bool) (c : Char) : Bool :=
  strconv.IsPrint tbl c && c != Char.ofNat 34 && c != Char.ofNat 92

/-- A header map all of whose keys and values consist of plain runes. -/
def plainHeader (tbl : Char → Bool) (h : http.Header) : Bool :=
  h.all (fun kv => kv.1.toList.all (plainRune tbl)
    && kv.2.all (fun value => value.toList.all (plainRune tbl)))

/-- The pair `(response, err)` a delegate returns for `req` from state `d`. -/
def delegatePair {δ : Type} (dg : http.RoundTripper δ) (d : δ) (req : http.Request) :
    Option http.Response × Option GoError :=
  ((dg.RoundTrip d req).2.1, (dg.RoundTrip d req).2.2.1)

/-- The time a delegate call for `req` from state `d` takes. -/
def delegateElapsed {δ : Type} (dg : http.RoundTripper δ) (d : δ) (req : http.Request) :
    time.Duration :=
  (dg.RoundTrip d req).2.2.2

/-- The result shape the `http.RoundTripper` contract allows: a response, or a
non-nil error; never a nil response together with a nil error. -/
def honoursContract (p : Option http.Response × Option GoError) : Prop :=
  p.1 ≠ none ∨ p.2 ≠ none

instance (p : Option http.Response × Option GoError) : Decidable (honoursContract p) := by
  unfold honoursContract; exact inferInstance

/-- The status line `complete` records for a delegate result: the response's
when the error is nil, empty otherwise. -/
def recordedStatus (p : Option http.Response × Option GoError) : String :=
  match p.2, p.1 with
  | none, some resp => resp.Status
  | _, _ => ""

/-- The response headers `complete` records for a delegate result: the
response's when the error is nil, empty otherwise. -/
def recordedHeaders (p : Option http.Response × Option GoError) : http.Header :=
  match p.2, p.1 with
  | none, some resp => resp.Header
  | _, _ => []

/-- The blocks the specification lists for the time before the delegate call,
in its fixed order: `JustURL`, `CurlCommand`, `RequestHeaders`, for a method, a
URL text and a request header map; a level that is not supplied contributes
nothing. The flags of the curl command follow the order of the `range` in
`toCurl`, the header lines the order of the `range` of the block. -/
def requestBlocks (env : Runtime) (levels : List debugLevel) (method url : String)
    (headers : http.Header) : String :=
  (if JustURL ∈ levels then method ++ " " ++ url ++ "\n" else "")
    ++ ((if CurlCommand ∈ levels then
          "curl -k -v -X" ++ method ++ " "
            ++ String.join (quotedSegments env.printTable (env.curlRange.visit headers))
            ++ " " ++ url ++ "\n" else "")
    ++ (if RequestHeaders ∈ levels then
          "Request Headers:\n" ++ String.join (headerLines (env.requestRange.visit headers))
        else ""))

/-- The blocks the specification lists for the time after the delegate returns,
in its fixed order: `URLTiming`, `ResponseStatus`, `ResponseHeaders`, for a
method, a URL text, a status line, a response header map and an elapsed
time. -/
def responseBlocks (env : Runtime) (levels : List debugLevel) (method url status : String)
    (headers : http.Header) (elapsed : time.Duration) : String :=
  (if URLTiming ∈ levels then
      method ++ " " ++ url ++ " " ++ status ++ " in "
        ++ fmt.formatInt (milliseconds elapsed) ++ " milliseconds\n" else "")
    ++ ((if ResponseStatus ∈ levels then
      "Response Status: " ++ status ++ " in "
        ++ fmt.formatInt (milliseconds elapsed) ++ " milliseconds\n" else "")
    ++ (if ResponseHeaders ∈ levels then
          "Response Headers:\n" ++ String.join (headerLines (env.responseRange.visit headers))
        else ""))

/-! ### Concrete collaborators for the examples -/

/-- A sink whose `Write` fails on the attempts selected by `fails`: such an
attempt stores nothing and reports zero bytes and an error. The state is the
number of attempts so far and the text stored. -/
def flakyWriter (fails : Nat → Bool) : io.Writer (Nat × String) :=
  ⟨fun s p =>
    if fails s.1 then ((s.1 + 1, s.2), 0, some "write failed")
    else ((s.1 + 1, s.2 ++ p), p.utf8ByteSize, none)⟩

/-- A stand-in for the Unicode tables of `strconv.IsPrint` that marks no rune
above U+00FF printable. The concrete examples below use ASCII text only, whose
runes `IsPrint` settles on its Latin-1 fast path without consulting a table. -/
def latin1Only : Char → Bool := fun _ => false

/-- A runtime whose three `range` statements visit a map in the listed order. -/
def listedRuntime : Runtime :=
  ⟨latin1Only, RangeOrder.listed, RangeOrder.listed, RangeOrder.listed⟩

/-- A runtime whose `range` in `toCurl` visits a map in the listed order while
the `range` statements of the two header blocks visit it last to first. -/
def mixedRuntime : Runtime :=
  ⟨latin1Only, RangeOrder.listed, RangeOrder.reversed, RangeOrder.reversed⟩

/-- An in-memory sink that never fails (a `bytes.Buffer`): the state is the text
written so far. -/
def bufferWriter : io.Writer String :=
  ⟨fun s p => (s ++ p, p.utf8ByteSize, none)⟩

/-- A delegate without state that answers every request with the same triple. -/
def constDelegate (response : Option http.Response) (err : Option GoError)
    (elapsed : time.Duration) : http.RoundTripper Unit :=
  ⟨fun d _ => (d, response, err, elapsed)⟩

/-- A delegate that counts its invocations and answers with the same triple. -/
def countingDelegate (response : Option http.Response) (err : Option GoError)
    (elapsed : time.Duration) : http.RoundTripper Nat :=
  ⟨fun n _ => (n + 1, response, err, elapsed)⟩

end httpdebugger

/-! ## Auxiliary lemmas -/

namespace httpdebugger

theorem join_cons (x : String) (xs : List String) :
    String.join (x :: xs) = x ++ String.join xs := by
  apply String.ext; simp [String.data_join]

theorem join_append (xs ys : List String) :
    String.join (xs ++ ys) = String.join xs ++ String.join ys := by
  apply String.ext; simp [String.data_join]

theorem foldl_append_eq_join {α : Type} (f : α → String) (l : List α) (init : String) :
    l.foldl (fun acc x => acc ++ f x) init = init ++ String.join (l.map f) := by
  induction l generalizing init with
  | nil => simp [String.join]
  | cons x xs ih => simp only [List.foldl_cons, List.map_cons, ih, join_cons, String.append_assoc]

theorem nested_foldl_eq_join (g : String → String → String) (h : http.Header) (init : String) :
    h.foldl (fun acc kv => kv.2.foldl (fun acc value => acc ++ g kv.1 value) acc) init
      = init ++ String.join (h.flatMap (fun kv => kv.2.map (fun value => g kv.1 value))) := by
  induction h generalizing init with
  | nil => simp [String.join]
  | cons kv rest ih =>
    simp only [List.foldl_cons, List.flatMap_cons, join_append]
    rw [foldl_append_eq_join (fun value => g kv.1 value) kv.2 init, ih, String.append_assoc]

theorem curlHeaders_eq (tbl : Char → Bool) (o : RangeOrder) (h : http.Header) :
    curlHeaders tbl o h = String.join (quotedSegments tbl (o.visit h)) := by
  unfold curlHeaders quotedSegments
  rw [nested_foldl_eq_join (fun key value => " -H " ++ strconv.Quote tbl (key ++ ": " ++ value))]
  simp

theorem toCurl_eq (tbl : Char → Bool) (o : RangeOrder) (r : requestInfo) :
    toCurl tbl o r
      = "curl -k -v -X" ++ r.RequestVerb ++ " "
          ++ String.join (quotedSegments tbl (o.visit r.RequestHeaders)) ++ " "
          ++ r.RequestURL := by
  unfold toCurl
  rw [curlHeaders_eq]

theorem writeHeaderLines_buffer (o : RangeOrder) (s : String) (h : http.Header) :
    writeHeaderLines bufferWriter o s h = s ++ String.join (headerLines (o.visit h)) := by
  unfold writeHeaderLines headerLines
  exact nested_foldl_eq_join (fun key value => "    " ++ key ++ ": " ++ value ++ "\n") _ s

theorem headerLines_perm (o : RangeOrder) (h : http.Header) :
    List.Perm (headerLines (o.visit h)) (headerLines h) :=
  List.Perm.flatMap_right _ (o.perm h)

theorem quotedSegments_perm (tbl : Char → Bool) (o : RangeOrder) (h : http.Header) :
    List.Perm (quotedSegments tbl (o.visit h)) (quotedSegments tbl h) :=
  List.Perm.flatMap_right _ (o.perm h)

theorem foldl_setLevel (levels : List debugLevel) (m : debugLevel → Bool) (k : debugLevel) :
    (levels.foldl setLevel m) k = (m k || decide (k ∈ levels)) := by
  induction levels generalizing m with
  | nil => simp
  | cons v vs ih =>
    simp only [List.foldl_cons, ih, setLevel, List.mem_cons]
    by_cases hk : k = v <;> simp [hk]

theorem levels_lookup {σ δ : Type} (rt : Option (http.RoundTripper δ)) (w : io.Writer σ)
    (levels : List debugLevel) (k : debugLevel) :
    (NewDebuggingRoundTripper rt w levels).levels k = decide (k ∈ levels) := by
  simp [NewDebuggingRoundTripper, foldl_setLevel]

theorem Fprintf_buffer (s text : String) : (fmt.Fprintf bufferWriter s text).1 = s ++ text := rfl

theorem emitRequest_buffer (env : Runtime) (lv : debugLevel → Bool) (s : String)
    (info : requestInfo) :
    emitRequest env bufferWriter lv s info
      = s ++ ((if lv JustURL then justURLLine info else "")
          ++ ((if lv CurlCommand then
                toCurl env.printTable env.curlRange info ++ "\n" else "")
          ++ (if lv RequestHeaders then
                "Request Headers:\n"
                  ++ String.join (headerLines (env.requestRange.visit info.RequestHeaders))
              else ""))) := by
  unfold emitRequest
  cases lv JustURL <;> cases lv CurlCommand <;> cases lv RequestHeaders <;>
    simp only [Fprintf_buffer, writeHeaderLines_buffer, String.append_assoc, Bool.false_eq_true,
      if_true, if_false, String.append_empty, String.empty_append]

theorem emitResponse_buffer (env : Runtime) (lv : debugLevel → Bool) (s : String)
    (info : requestInfo) :
    emitResponse env bufferWriter lv s info
      = s ++ ((if lv URLTiming then urlTimingLine info else "")
          ++ ((if lv ResponseStatus then responseStatusLine info else "")
          ++ (if lv ResponseHeaders then
                "Response Headers:\n"
                  ++ String.join (headerLines (env.responseRange.visit info.ResponseHeaders))
              else ""))) := by
  unfold emitResponse
  cases lv URLTiming <;> cases lv ResponseStatus <;> cases lv ResponseHeaders <;>
    simp only [Fprintf_buffer, writeHeaderLines_buffer, String.append_assoc, Bool.false_eq_true,
      if_true, if_false, String.append_empty, String.empty_append]

theorem RoundTrip_of_nil_URL {σ δ : Type} (env : Runtime) (rt : debuggingRoundTripper σ δ)
    (s : σ) (d : δ) (req : http.Request) (hu : req.URL = none) :
    RoundTrip env rt s d req = ⟨s, s, d, .error Panic.nilPointerDereference⟩ := by
  unfold RoundTrip newRequestInfo
  rw [hu]

theorem RoundTrip_of_nil_delegate {σ δ : Type} (env : Runtime) (rt : debuggingRoundTripper σ δ)
    (s : σ) (d : δ) (req : http.Request) (info : requestInfo)
    (hinfo : newRequestInfo req = .ok info) (hdg : rt.delegatedRoundTripper = none) :
    RoundTrip env rt s d req
      = ⟨emitRequest env rt.writer rt.levels s info, emitRequest env rt.writer rt.levels s info,
         d, .error Panic.nilPointerDereference⟩ := by
  unfold RoundTrip
  rw [hinfo, hdg]

theorem RoundTrip_of_error {σ δ : Type} (env : Runtime) (rt : debuggingRoundTripper σ δ)
    (dg : http.RoundTripper δ) (s : σ) (d : δ) (req : http.Request) (info : requestInfo)
    (e : GoError) (hinfo : newRequestInfo req = .ok info)
    (hdg : rt.delegatedRoundTripper = some dg) (he : (delegatePair dg d req).2 = some e) :
    RoundTrip env rt s d req
      = ⟨emitRequest env rt.writer rt.levels s info,
         emitResponse env rt.writer rt.levels (emitRequest env rt.writer rt.levels s info)
           { info with Duration := delegateElapsed dg d req, ResponseErr := some e },
         (dg.RoundTrip d req).1, .ok (delegatePair dg d req)⟩ := by
  obtain ⟨f⟩ := dg
  unfold delegatePair at he ⊢
  unfold delegateElapsed
  unfold RoundTrip
  rw [hinfo, hdg]
  simp only at he ⊢
  generalize f d req = x at he ⊢
  obtain ⟨d1, response, err, elapsed⟩ := x
  simp only at he
  subst he
  simp [complete]

theorem RoundTrip_of_response {σ δ : Type} (env : Runtime) (rt : debuggingRoundTripper σ δ)
    (dg : http.RoundTripper δ) (s : σ) (d : δ) (req : http.Request) (info : requestInfo)
    (resp : http.Response) (hinfo : newRequestInfo req = .ok info)
    (hdg : rt.delegatedRoundTripper = some dg)
    (hp : delegatePair dg d req = (some resp, none)) :
    RoundTrip env rt s d req
      = ⟨emitRequest env rt.writer rt.levels s info,
         emitResponse env rt.writer rt.levels (emitRequest env rt.writer rt.levels s info)
           { info with
               Duration := delegateElapsed dg d req,
               ResponseStatus := resp.Status, ResponseHeaders := resp.Header },
         (dg.RoundTrip d req).1, .ok (delegatePair dg d req)⟩ := by
  obtain ⟨f⟩ := dg
  unfold delegatePair at hp ⊢
  unfold delegateElapsed
  unfold RoundTrip
  rw [hinfo, hdg]
  simp only at hp ⊢
  generalize f d req = x at hp ⊢
  obtain ⟨d1, response, err, elapsed⟩ := x
  simp only [Prod.mk.injEq] at hp
  obtain ⟨h1, h2⟩ := hp
  subst h1 h2
  simp [complete]

theorem RoundTrip_of_nil_nil {σ δ : Type} (env : Runtime) (rt : debuggingRoundTripper σ δ)
    (dg : http.RoundTripper δ) (s : σ) (d : δ) (req : http.Request) (info : requestInfo)
    (hinfo : newRequestInfo req = .ok info)
    (hdg : rt.delegatedRoundTripper = some dg)
    (hp : delegatePair dg d req = (none, none)) :
    RoundTrip env rt s d req
      = ⟨emitRequest env rt.writer rt.levels s info,
         emitRequest env rt.writer rt.levels s info,
         (dg.RoundTrip d req).1, .error Panic.nilPointerDereference⟩ := by
  obtain ⟨f⟩ := dg
  unfold delegatePair at hp
  unfold RoundTrip
  rw [hinfo, hdg]
  simp only at hp ⊢
  generalize f d req = x at hp ⊢
  obtain ⟨d1, response, err, elapsed⟩ := x
  simp only [Prod.mk.injEq] at hp
  obtain ⟨h1, h2⟩ := hp
  subst h1 h2
  simp [complete]

theorem newRequestInfo_of_URL (m u : String) (hdr : http.Header) :
    newRequestInfo ⟨m, some u, hdr⟩
      = .ok { RequestHeaders := hdr, RequestVerb := m, RequestURL := u, ResponseStatus := "",
              ResponseHeaders := [], ResponseErr := none, Duration := 0 } := rfl

/-- The outcome of `RoundTrip` when `req.URL` is not nil and the delegate's
result honours the contract: the post-call statements run on the record
`complete` filled in, and the delegate's pair is returned. -/
theorem RoundTrip_of_contract {σ δ : Type} (env : Runtime) (rt : debuggingRoundTripper σ δ)
    (dg : http.RoundTripper δ) (s : σ) (d : δ) (m u : String) (hdr : http.Header)
    (hdg : rt.delegatedRoundTripper = some dg)
    (h : honoursContract (delegatePair dg d ⟨m, some u, hdr⟩)) :
    RoundTrip env rt s d ⟨m, some u, hdr⟩
      = ⟨emitRequest env rt.writer rt.levels s ⟨hdr, m, u, "", [], none, 0⟩,
         emitResponse env rt.writer rt.levels
           (emitRequest env rt.writer rt.levels s ⟨hdr, m, u, "", [], none, 0⟩)
           { RequestHeaders := hdr, RequestVerb := m, RequestURL := u,
             ResponseStatus := recordedStatus (delegatePair dg d ⟨m, some u, hdr⟩),
             ResponseHeaders := recordedHeaders (delegatePair dg d ⟨m, some u, hdr⟩),
             ResponseErr := (delegatePair dg d ⟨m, some u, hdr⟩).2,
             Duration := delegateElapsed dg d ⟨m, some u, hdr⟩ },
         (dg.RoundTrip d ⟨m, some u, hdr⟩).1,
         .ok (delegatePair dg d ⟨m, some u, hdr⟩)⟩ := by
  rcases hp : delegatePair dg d ⟨m, some u, hdr⟩ with ⟨response, err⟩
  cases err with
  | some e =>
    have he : (delegatePair dg d ⟨m, some u, hdr⟩).2 = some e := by rw [hp]
    rw [RoundTrip_of_error env rt dg s d _ _ e (newRequestInfo_of_URL m u hdr) hdg he, hp]
    cases response <;> rfl
  | none =>
    cases response with
    | none =>
      rw [hp] at h
      exact absurd h (by simp [honoursContract])
    | some resp =>
      rw [RoundTrip_of_response env rt dg s d _ _ resp (newRequestInfo_of_URL m u hdr) hdg hp,
        hp]
      rfl

theorem emitRequest_New {σ δ : Type} (env : Runtime) (rt : Option (http.RoundTripper δ))
    (w : io.Writer σ) (levels : List debugLevel) (s : String) (info : requestInfo) :
    emitRequest env bufferWriter (NewDebuggingRoundTripper rt w levels).levels s info
      = s ++ requestBlocks env levels info.RequestVerb info.RequestURL info.RequestHeaders := by
  rw [emitRequest_buffer]
  simp only [levels_lookup, decide_eq_true_eq, toCurl_eq]
  rfl

theorem emitResponse_New {σ δ : Type} (env : Runtime) (rt : Option (http.RoundTripper δ))
    (w : io.Writer σ) (levels : List debugLevel) (s : String) (info : requestInfo) :
    emitResponse env bufferWriter (NewDebuggingRoundTripper rt w levels).levels s info
      = s ++ responseBlocks env levels info.RequestVerb info.RequestURL info.ResponseStatus
          info.ResponseHeaders info.Duration := by
  rw [emitResponse_buffer]
  simp only [levels_lookup, decide_eq_true_eq]
  rfl

theorem emitRequest_off {σ : Type} {lv : debugLevel → Bool} (h : ∀ k, lv k = false)
    (env : Runtime) (w : io.Writer σ) (s : σ) (info : requestInfo) :
    emitRequest env w lv s info = s := by
  simp [emitRequest, h]

theorem emitResponse_off {σ : Type} {lv : debugLevel → Bool} (h : ∀ k, lv k = false)
    (env : Runtime) (w : io.Writer σ) (s : σ) (info : requestInfo) :
    emitResponse env w lv s info = s := by
  simp [emitResponse, h]

theorem eq_nil_nil_of_not_contract {p : Option http.Response × Option GoError}
    (h : ¬ honoursContract p) : p = (none, none) := by
  obtain ⟨response, err⟩ := p
  cases response <;> cases err <;> simp [honoursContract] at h ⊢


/-! ## C1: transparency -/

/-- C1 (counterexample): with no level enabled, a delegate that returns a nil
response together with a nil error makes `RoundTrip` panic in `complete`: the
delegate's pair `(nil, nil)` is not returned. And on a request whose URL is nil
`RoundTrip` panics in `newRequestInfo`: the pair of a delegate that would
answer `200 OK` is not returned either. -/
theorem RoundTrip_not_transparent_on_nil_nil :
    (RoundTrip listedRuntime
        (NewDebuggingRoundTripper (some (constDelegate none none 0)) bufferWriter [])
        "" () ⟨"GET", some "http://x/y", []⟩).result
      = Except.error Panic.nilPointerDereference
    ∧ (RoundTrip listedRuntime
        (NewDebuggingRoundTripper (some (constDelegate none none 0)) bufferWriter [])
        "" () ⟨"GET", some "http://x/y", []⟩).result
      ≠ Except.ok (delegatePair (constDelegate none none 0) ()
          ⟨"GET", some "http://x/y", []⟩)
    ∧ (RoundTrip listedRuntime
        (NewDebuggingRoundTripper
          (some (constDelegate (some ⟨"200 OK", 200, [], ""⟩) none 0)) bufferWriter [])
        "" () ⟨"GET", none, []⟩).result
      ≠ Except.ok (delegatePair (constDelegate (some ⟨"200 OK", 200, [], ""⟩) none 0) ()
          ⟨"GET", none, []⟩) := by
  refine ⟨rfl, ?_, ?_⟩
  · intro h
    cases h
  · intro h
    cases h

/-- C1 (amended): for every request whose URL is not nil, every list of levels,
every sink, every sink state and every delegate whose result for the request is
not a nil response with a nil error, `RoundTrip` returns exactly the pair the
delegate returns. -/
theorem RoundTrip_transparent {σ δ : Type} (env : Runtime) (w : io.Writer σ)
    (levels : List debugLevel) (dg : http.RoundTripper δ) (s : σ) (d : δ)
    (m u : String) (hdr : http.Header)
    (h : honoursContract (delegatePair dg d ⟨m, some u, hdr⟩)) :
    (RoundTrip env (NewDebuggingRoundTripper (some dg) w levels) s d
        ⟨m, some u, hdr⟩).result
      = Except.ok (delegatePair dg d ⟨m, some u, hdr⟩) := by
  rw [RoundTrip_of_contract env _ dg s d m u hdr rfl h]

/-- C1 (witness): a delegate answering `200 OK`, all six levels enabled. -/
theorem RoundTrip_transparent_witness :
    honoursContract (delegatePair
        (constDelegate (some ⟨"200 OK", 200, [("X", ["1"])], "body"⟩) none 1500000) ()
        ⟨"GET", some "http://x/y", [("A", ["1"])]⟩)
    ∧ (RoundTrip mixedRuntime
        (NewDebuggingRoundTripper
          (some (constDelegate (some ⟨"200 OK", 200, [("X", ["1"])], "body"⟩) none 1500000))
          bufferWriter [JustURL, URLTiming, CurlCommand, RequestHeaders, ResponseStatus,
            ResponseHeaders])
        "" () ⟨"GET", some "http://x/y", [("A", ["1"])]⟩).result
      = Except.ok (some ⟨"200 OK", 200, [("X", ["1"])], "body"⟩, none) :=
  ⟨by decide, RoundTrip_transparent _ _ _ _ _ _ _ _ _ (by decide)⟩

/-! ## C2: silence -/

/-- C2: a decorator built with no levels leaves the sink untouched on every
call: for every sink, sink state, request (its URL nil or not) and delegate
(absent, failing, succeeding or returning nothing at all), the sink state
before the delegate call and the sink state at the end of the call are the
state before the call. -/
theorem RoundTrip_silent {σ δ : Type} (env : Runtime) (rt : Option (http.RoundTripper δ))
    (w : io.Writer σ) (s : σ) (d : δ) (req : http.Request) :
    (RoundTrip env (NewDebuggingRoundTripper rt w []) s d req).sinkAtCall = s
    ∧ (RoundTrip env (NewDebuggingRoundTripper rt w []) s d req).sink = s := by
  have hlv : ∀ k, (NewDebuggingRoundTripper rt w []).levels k = false := by
    intro k
    simp [levels_lookup]
  obtain ⟨m, url, hdr⟩ := req
  cases url with
  | none =>
    rw [RoundTrip_of_nil_URL env _ s d _ rfl]
    exact ⟨rfl, rfl⟩
  | some u =>
    cases rt with
    | none =>
      rw [RoundTrip_of_nil_delegate env _ s d _ _ (newRequestInfo_of_URL m u hdr) rfl]
      simp only [emitRequest_off hlv, and_self]
    | some dg =>
      by_cases h : honoursContract (delegatePair dg d ⟨m, some u, hdr⟩)
      · rw [RoundTrip_of_contract env _ dg s d m u hdr rfl h]
        simp only [emitRequest_off hlv, emitResponse_off hlv, and_self]
      · rw [RoundTrip_of_nil_nil env _ dg s d _ _ (newRequestInfo_of_URL m u hdr) rfl
          (eq_nil_nil_of_not_contract h)]
        simp only [emitRequest_off hlv, and_self]


/-! ## C3: what is written, and when -/

/-- C3 (counterexample): with `URLTiming` enabled and a delegate that returns a
nil response with a nil error, the call panics before the post-call statements
run: the sink stays empty although the `URLTiming` level was supplied. And with
`JustURL` enabled on a request whose URL is nil, the call panics before
anything is written. -/
theorem RoundTrip_output_cut_short_on_nil_nil :
    (RoundTrip listedRuntime
        (NewDebuggingRoundTripper (some (constDelegate none none 0)) bufferWriter [URLTiming])
        "" () ⟨"GET", some "http://x/y", []⟩).sink = ""
    ∧ (RoundTrip listedRuntime
        (NewDebuggingRoundTripper (some (constDelegate none none 0)) bufferWriter [URLTiming])
        "" () ⟨"GET", some "http://x/y", []⟩).sink
      ≠ requestBlocks listedRuntime [URLTiming] "GET" "http://x/y" []
          ++ responseBlocks listedRuntime [URLTiming] "GET" "http://x/y" "" [] 0
    ∧ (RoundTrip listedRuntime
        (NewDebuggingRoundTripper (some (constDelegate none (some "refused") 0)) bufferWriter
          [JustURL])
        "" () ⟨"GET", none, []⟩).sink = "" := by
  decide

/-- C3 (amended): for every runtime, every list of levels, every request whose
URL is not nil and every delegate whose result is not a nil response with a nil
error, an in-memory sink holds, when the delegate is invoked, its previous
contents followed by the blocks of the supplied levels among `JustURL`,
`CurlCommand`, `RequestHeaders` in that order, and at the end of the call
additionally the blocks of the supplied levels among `URLTiming`,
`ResponseStatus`, `ResponseHeaders` in that order, the status and the response
headers being those `complete` recorded. The flags of the curl command and the
lines of each header block follow the order in which their own `range` visits
the map, so they are a rearrangement of one flag, respectively one line, per
header value. With `JustURL` alone on `GET http://x/y` the sink holds exactly
`GET http://x/y` and a newline when the delegate is invoked and nothing is
added afterwards, for every runtime and every delegate. -/
theorem RoundTrip_output {δ : Type} (env : Runtime) (levels : List debugLevel)
    (dg : http.RoundTripper δ) (s : String) (d : δ) (m u : String) (hdr : http.Header)
    (h : honoursContract (delegatePair dg d ⟨m, some u, hdr⟩)) :
    (RoundTrip env (NewDebuggingRoundTripper (some dg) bufferWriter levels) s d
        ⟨m, some u, hdr⟩).sinkAtCall
      = s ++ requestBlocks env levels m u hdr
    ∧ (RoundTrip env (NewDebuggingRoundTripper (some dg) bufferWriter levels) s d
        ⟨m, some u, hdr⟩).sink
      = s ++ requestBlocks env levels m u hdr
          ++ responseBlocks env levels m u
              (recordedStatus (delegatePair dg d ⟨m, some u, hdr⟩))
              (recordedHeaders (delegatePair dg d ⟨m, some u, hdr⟩))
              (delegateElapsed dg d ⟨m, some u, hdr⟩)
    ∧ List.Perm (quotedSegments env.printTable (env.curlRange.visit hdr))
        (quotedSegments env.printTable hdr)
    ∧ List.Perm (headerLines (env.requestRange.visit hdr)) (headerLines hdr)
    ∧ List.Perm
        (headerLines (env.responseRange.visit
          (recordedHeaders (delegatePair dg d ⟨m, some u, hdr⟩))))
        (headerLines (recordedHeaders (delegatePair dg d ⟨m, some u, hdr⟩)))
    ∧ ∀ (env2 : Runtime) (dg2 : http.RoundTripper δ) (d2 : δ) (hdr2 : http.Header),
        (RoundTrip env2 (NewDebuggingRoundTripper (some dg2) bufferWriter [JustURL]) "" d2
            ⟨"GET", some "http://x/y", hdr2⟩).sinkAtCall = "GET http://x/y\n"
        ∧ (RoundTrip env2 (NewDebuggingRoundTripper (some dg2) bufferWriter [JustURL]) "" d2
            ⟨"GET", some "http://x/y", hdr2⟩).sink = "GET http://x/y\n" := by
  have hpre : ∀ (e : Runtime) (dg1 : http.RoundTripper δ) (lv : List debugLevel) (t : String)
      (info : requestInfo),
      emitRequest e (NewDebuggingRoundTripper (some dg1) bufferWriter lv).writer
        (NewDebuggingRoundTripper (some dg1) bufferWriter lv).levels t info
        = t ++ requestBlocks e lv info.RequestVerb info.RequestURL info.RequestHeaders :=
    fun e dg1 lv t info => emitRequest_New e (some dg1) bufferWriter lv t info
  have hpost : ∀ (e : Runtime) (dg1 : http.RoundTripper δ) (lv : List debugLevel) (t : String)
      (info : requestInfo),
      emitResponse e (NewDebuggingRoundTripper (some dg1) bufferWriter lv).writer
        (NewDebuggingRoundTripper (some dg1) bufferWriter lv).levels t info
        = t ++ responseBlocks e lv info.RequestVerb info.RequestURL info.ResponseStatus
            info.ResponseHeaders info.Duration :=
    fun e dg1 lv t info => emitResponse_New e (some dg1) bufferWriter lv t info
  have hjust : ∀ (e : Runtime) (hd : http.Header),
      requestBlocks e [JustURL] "GET" "http://x/y" hd = "GET http://x/y\n" := by
    intro e hd
    simp [requestBlocks, JustURL, CurlCommand, RequestHeaders]
  have hnone : ∀ (e : Runtime) (a b st : String) (hd : http.Header) (el : time.Duration),
      responseBlocks e [JustURL] a b st hd el = "" := by
    intro e a b st hd el
    simp [responseBlocks, JustURL, URLTiming, ResponseStatus, ResponseHeaders]
  refine ⟨?_, ?_, quotedSegments_perm _ _ _, headerLines_perm _ _, headerLines_perm _ _, ?_⟩
  · rw [RoundTrip_of_contract env _ dg s d m u hdr rfl h]
    exact hpre env dg levels s _
  · rw [RoundTrip_of_contract env _ dg s d m u hdr rfl h]
    simp only [hpre, hpost]
  · intro env2 dg2 d2 hdr2
    by_cases h2 : honoursContract (delegatePair dg2 d2 ⟨"GET", some "http://x/y", hdr2⟩)
    · rw [RoundTrip_of_contract env2 _ dg2 "" d2 _ _ _ rfl h2]
      simp only [hpre, hpost, hnone, hjust]
      exact ⟨rfl, rfl⟩
    · rw [RoundTrip_of_nil_nil env2 _ dg2 "" d2 _ _ (newRequestInfo_of_URL _ _ _) rfl
        (eq_nil_nil_of_not_contract h2)]
      simp only [hpre, hjust]
      exact ⟨rfl, rfl⟩

/-- C3 (witness): all six levels on a request with three header values, the
delegate answering `200 OK` after 10.999999 ms, on a runtime whose `range` in
`toCurl` visits the headers as listed while the `range` statements of the
header blocks visit them last to first. -/
theorem RoundTrip_output_witness :
    (RoundTrip mixedRuntime
        (NewDebuggingRoundTripper
          (some (constDelegate
            (some ⟨"200 OK", 200, [("X", ["1", "2"]), ("Y", ["3"])], ""⟩) none 10999999))
          bufferWriter [ResponseHeaders, ResponseStatus, RequestHeaders, CurlCommand,
            URLTiming, JustURL])
        "" () ⟨"GET", some "http://x/y", [("A", ["1"]), ("B", ["2", "3"])]⟩).sink
      = "GET http://x/y\n"
        ++ "curl -k -v -XGET  -H \"A: 1\" -H \"B: 2\" -H \"B: 3\" http://x/y\n"
        ++ "Request Headers:\n    B: 2\n    B: 3\n    A: 1\n"
        ++ "GET http://x/y 200 OK in 10 milliseconds\n"
        ++ "Response Status: 200 OK in 10 milliseconds\n"
        ++ "Response Headers:\n    Y: 3\n    X: 1\n    X: 2\n" :=
  (RoundTrip_output mixedRuntime
    [ResponseHeaders, ResponseStatus, RequestHeaders, CurlCommand, URLTiming, JustURL]
    (constDelegate (some ⟨"200 OK", 200, [("X", ["1", "2"]), ("Y", ["3"])], ""⟩) none 10999999)
    "" () "GET" "http://x/y" [("A", ["1"]), ("B", ["2", "3"])] (by decide)).2.1.trans
    rfl

/-! ## C8: sink failures -/

/-- C8 (counterexample): on a sink whose every `Write` fails, with a delegate
that returns a nil response with a nil error, `RoundTrip` panics; the
delegate's pair is not returned. And on a request whose URL is nil the call
panics before the delegate is invoked: the delegate's call counter stays at
zero. -/
theorem RoundTrip_failing_sink_nil_nil :
    (RoundTrip listedRuntime
        (NewDebuggingRoundTripper (some (countingDelegate none none 0))
          (flakyWriter (fun _ => true)) [JustURL, URLTiming])
        (0, "") 0 ⟨"GET", some "http://x/y", []⟩).result
      = Except.error Panic.nilPointerDereference
    ∧ (RoundTrip listedRuntime
        (NewDebuggingRoundTripper (some (countingDelegate none none 0))
          (flakyWriter (fun _ => true)) [JustURL, URLTiming])
        (0, "") 0 ⟨"GET", some "http://x/y", []⟩).result
      ≠ Except.ok (delegatePair (countingDelegate none none 0) 0
          ⟨"GET", some "http://x/y", []⟩)
    ∧ (RoundTrip listedRuntime
        (NewDebuggingRoundTripper (some (countingDelegate none (some "refused") 0))
          (flakyWriter (fun _ => true)) [JustURL, URLTiming])
        (0, "") 0 ⟨"GET", none, []⟩).delegate = 0
    ∧ (RoundTrip listedRuntime
        (NewDebuggingRoundTripper (some (countingDelegate none (some "refused") 0))
          (flakyWriter (fun _ => true)) [JustURL, URLTiming])
        (0, "") 0 ⟨"GET", none, []⟩).result
      = Except.error Panic.nilPointerDereference := by
  refine ⟨rfl, ?_, rfl, rfl⟩
  intro h
  cases h

/-- C8 (amended): for every runtime, every request whose URL is not nil, every
list of levels, every sink, whatever its `Write` stores or returns on any of
the writes, and every delegate whose result is not a nil response with a nil
error, `RoundTrip` returns exactly the delegate's pair and leaves the delegate
in the state one invocation on the request produces; both are what a run on a
never-failing in-memory sink gives. -/
theorem RoundTrip_sink_failures_isolated {σ δ : Type} (env : Runtime) (w : io.Writer σ)
    (levels : List debugLevel) (dg : http.RoundTripper δ) (s : σ) (d : δ)
    (m u : String) (hdr : http.Header)
    (h : honoursContract (delegatePair dg d ⟨m, some u, hdr⟩)) :
    (RoundTrip env (NewDebuggingRoundTripper (some dg) w levels) s d
        ⟨m, some u, hdr⟩).result
      = Except.ok (delegatePair dg d ⟨m, some u, hdr⟩)
    ∧ (RoundTrip env (NewDebuggingRoundTripper (some dg) w levels) s d
        ⟨m, some u, hdr⟩).delegate
      = (dg.RoundTrip d ⟨m, some u, hdr⟩).1
    ∧ (RoundTrip env (NewDebuggingRoundTripper (some dg) w levels) s d
        ⟨m, some u, hdr⟩).result
      = (RoundTrip env (NewDebuggingRoundTripper (some dg) bufferWriter levels) "" d
          ⟨m, some u, hdr⟩).result
    ∧ (RoundTrip env (NewDebuggingRoundTripper (some dg) w levels) s d
        ⟨m, some u, hdr⟩).delegate
      = (RoundTrip env (NewDebuggingRoundTripper (some dg) bufferWriter levels) "" d
          ⟨m, some u, hdr⟩).delegate := by
  rw [RoundTrip_of_contract env _ dg s d m u hdr rfl h,
    RoundTrip_of_contract env _ dg "" d m u hdr rfl h]
  exact ⟨rfl, rfl, rfl, rfl⟩

/-- C8 (witness): a sink that fails on every second write, all six levels, a
delegate that counts its calls. The pair comes back unchanged, the delegate was
called once, and the sink stored only the writes that did not fail. -/
theorem RoundTrip_sink_failures_isolated_witness :
    (RoundTrip listedRuntime
        (NewDebuggingRoundTripper
          (some (countingDelegate (some ⟨"200 OK", 200, [], ""⟩) none 2000000))
          (flakyWriter (fun n => n % 2 == 0))
          [JustURL, URLTiming, CurlCommand, RequestHeaders, ResponseStatus, ResponseHeaders])
        (0, "") 0 ⟨"GET", some "http://x/y", []⟩).result
      = Except.ok (some ⟨"200 OK", 200, [], ""⟩, none)
    ∧ (RoundTrip listedRuntime
        (NewDebuggingRoundTripper
          (some (countingDelegate (some ⟨"200 OK", 200, [], ""⟩) none 2000000))
          (flakyWriter (fun n => n % 2 == 0))
          [JustURL, URLTiming, CurlCommand, RequestHeaders, ResponseStatus, ResponseHeaders])
        (0, "") 0 ⟨"GET", some "http://x/y", []⟩).delegate = 1
    ∧ (RoundTrip listedRuntime
        (NewDebuggingRoundTripper
          (some (countingDelegate (some ⟨"200 OK", 200, [], ""⟩) none 2000000))
          (flakyWriter (fun n => n % 2 == 0))
          [JustURL, URLTiming, CurlCommand, RequestHeaders, ResponseStatus, ResponseHeaders])
        (0, "") 0 ⟨"GET", some "http://x/y", []⟩).sink
      = (6, "curl -k -v -XGET  http://x/y\nGET http://x/y 200 OK in 2 milliseconds\n"
            ++ "Response Headers:\n") :=
  ⟨(RoundTrip_sink_failures_isolated listedRuntime (flakyWriter (fun n => n % 2 == 0))
      [JustURL, URLTiming, CurlCommand, RequestHeaders, ResponseStatus, ResponseHeaders]
      (countingDelegate (some ⟨"200 OK", 200, [], ""⟩) none 2000000)
      (0, "") 0 "GET" "http://x/y" [] (by decide)).1,
    (RoundTrip_sink_failures_isolated listedRuntime (flakyWriter (fun n => n % 2 == 0))
      [JustURL, URLTiming, CurlCommand, RequestHeaders, ResponseStatus, ResponseHeaders]
      (countingDelegate (some ⟨"200 OK", 200, [], ""⟩) none 2000000)
      (0, "") 0 "GET" "http://x/y" [] (by decide)).2.1,
    by decide⟩

/-! ## C10: a missing delegate -/

/-- C10 (counterexample): `NewDebuggingRoundTripper` called with a nil delegate
returns a decorator that holds the nil delegate; `RoundTrip` on it writes the
`JustURL` line and then panics at the delegate call. -/
theorem NewDebuggingRoundTripper_accepts_nil_delegate :
    (NewDebuggingRoundTripper (none : Option (http.RoundTripper Unit)) bufferWriter
        [JustURL]).delegatedRoundTripper.isNone = true
    ∧ (RoundTrip listedRuntime
        (NewDebuggingRoundTripper (none : Option (http.RoundTripper Unit)) bufferWriter [JustURL])
        "" () ⟨"GET", some "http://x/y", []⟩).result = Except.error Panic.nilPointerDereference
    ∧ (RoundTrip listedRuntime
        (NewDebuggingRoundTripper (none : Option (http.RoundTripper Unit)) bufferWriter [JustURL])
        "" () ⟨"GET", some "http://x/y", []⟩).sink = "GET http://x/y\n" := by
  refine ⟨rfl, rfl, ?_⟩
  decide

/-- C10 (amended): `NewDebuggingRoundTripper` inspects none of its arguments and
always returns a decorator, which stores the delegate it was given, a nil one
included, the sink, and the set of the supplied levels. On a decorator built
with a nil delegate every `RoundTrip` panics and leaves the delegate state
alone; on a request whose URL is not nil it first runs the pre-call statements
and panics at the delegate call. -/
theorem NewDebuggingRoundTripper_stores_delegate {σ δ : Type} (env : Runtime)
    (rt : Option (http.RoundTripper δ)) (w : io.Writer σ) (levels : List debugLevel)
    (s : σ) (d : δ) (req : http.Request) (m u : String) (hdr : http.Header) :
    (NewDebuggingRoundTripper rt w levels).delegatedRoundTripper = rt
    ∧ (NewDebuggingRoundTripper rt w levels).writer = w
    ∧ (∀ k, (NewDebuggingRoundTripper rt w levels).levels k = decide (k ∈ levels))
    ∧ (RoundTrip env (NewDebuggingRoundTripper (none : Option (http.RoundTripper δ)) w levels)
        s d req).result = Except.error Panic.nilPointerDereference
    ∧ (RoundTrip env (NewDebuggingRoundTripper (none : Option (http.RoundTripper δ)) w levels)
        s d req).delegate = d
    ∧ (RoundTrip env (NewDebuggingRoundTripper (none : Option (http.RoundTripper δ)) w levels)
        s d ⟨m, some u, hdr⟩).sink
      = emitRequest env w
          (NewDebuggingRoundTripper (none : Option (http.RoundTripper δ)) w levels).levels s
          { RequestHeaders := hdr, RequestVerb := m, RequestURL := u, ResponseStatus := "",
            ResponseHeaders := [], ResponseErr := none, Duration := 0 } := by
  refine ⟨rfl, rfl, fun k => levels_lookup rt w levels k, ?_, ?_, rfl⟩
  · obtain ⟨m1, url, hdr1⟩ := req
    cases url <;> rfl
  · obtain ⟨m1, url, hdr1⟩ := req
    cases url <;> rfl


/-! ## C9: the completion invariant -/

/-- C9: for every request whose URL is not nil, `newRequestInfo` returns the
fresh record, and for every elapsed time and every pair passed to `complete` on
that record, either `complete` returns and then exactly one side is populated
(the error is stored and status and headers are empty, or the error is nil and
status and headers are the response's), or the pair is a nil response with a
nil error and `complete` panics without returning. -/
theorem complete_invariant (m u : String) (hdr : http.Header) (elapsed : time.Duration)
    (response : Option http.Response) (err : Option GoError) :
    newRequestInfo ⟨m, some u, hdr⟩
      = Except.ok
          { RequestHeaders := hdr, RequestVerb := m, RequestURL := u, ResponseStatus := "",
            ResponseHeaders := [], ResponseErr := none, Duration := 0 }
    ∧ ((∃ info,
          complete
              { RequestHeaders := hdr, RequestVerb := m, RequestURL := u, ResponseStatus := "",
                ResponseHeaders := [], ResponseErr := none, Duration := elapsed }
              response err
            = Except.ok info
          ∧ ((info.ResponseErr ≠ none ∧ info.ResponseErr = err ∧ info.ResponseStatus = ""
                ∧ info.ResponseHeaders = [])
            ∨ (info.ResponseErr = none ∧ err = none
                ∧ ∃ resp, response = some resp ∧ info.ResponseStatus = resp.Status
                    ∧ info.ResponseHeaders = resp.Header))
          ∧ ¬ (info.ResponseErr ≠ none
                ∧ (info.ResponseStatus ≠ "" ∨ info.ResponseHeaders ≠ []))
          ∧ info.RequestVerb = m ∧ info.RequestURL = u
          ∧ info.RequestHeaders = hdr ∧ info.Duration = elapsed)
      ∨ (response = none ∧ err = none
          ∧ complete
              { RequestHeaders := hdr, RequestVerb := m, RequestURL := u, ResponseStatus := "",
                ResponseHeaders := [], ResponseErr := none, Duration := elapsed }
              response err
            = Except.error Panic.nilPointerDereference)) := by
  refine ⟨rfl, ?_⟩
  cases err with
  | some e =>
    left
    exact ⟨_, rfl, Or.inl ⟨by simp, rfl, rfl, rfl⟩, by simp, rfl, rfl, rfl, rfl⟩
  | none =>
    cases response with
    | none => right; exact ⟨rfl, rfl, rfl⟩
    | some resp =>
      left
      exact ⟨_, rfl, Or.inr ⟨rfl, rfl, resp, rfl, rfl, rfl⟩, by simp, rfl, rfl, rfl, rfl⟩

/-! ## C7: a delegate error -/

theorem responseBlocks_empty_status (env : Runtime) (levels : List debugLevel) (m u : String)
    (elapsed : time.Duration) :
    responseBlocks env levels m u "" [] elapsed
      = (if URLTiming ∈ levels then
            m ++ " " ++ u ++ "  in " ++ fmt.formatInt (milliseconds elapsed)
              ++ " milliseconds\n" else "")
        ++ ((if ResponseStatus ∈ levels then
            "Response Status:  in " ++ fmt.formatInt (milliseconds elapsed)
              ++ " milliseconds\n" else "")
        ++ (if ResponseHeaders ∈ levels then "Response Headers:\n" else "")) := by
  have h1 : m ++ " " ++ u ++ " " ++ "" ++ " in " = m ++ " " ++ u ++ "  in " := by
    apply String.ext
    simp [String.data_append]
  have h2 : "Response Status: " ++ "" ++ " in " = "Response Status:  in " := by decide
  have h0 : env.responseRange.visit [] = [] := List.Perm.eq_nil (env.responseRange.perm [])
  have h3 : "Response Headers:\n" ++ String.join (headerLines (env.responseRange.visit []))
      = "Response Headers:\n" := by
    rw [h0]
    decide
  unfold responseBlocks
  rw [h1, h2, h3]

/-- C7: for every request whose URL is not nil and every delegate that returns
a non-nil error `e` (with a nil response or not), `complete` returns, storing
the error and leaving the status empty and the response headers empty;
`RoundTrip` returns the delegate's pair, whatever the sink; and on an in-memory
sink the post-call output is, for the supplied levels, the `URLTiming` line
with an empty status (two spaces before `in`), the `ResponseStatus` line
`Response Status:  in <N> milliseconds`, and a `Response Headers:` block
without header lines. -/
theorem RoundTrip_delegate_error {σ δ : Type} (env : Runtime) (w : io.Writer σ)
    (levels : List debugLevel) (dg : http.RoundTripper δ) (s : σ) (t : String) (d : δ)
    (m u : String) (hdr : http.Header) (e : GoError)
    (he : (delegatePair dg d ⟨m, some u, hdr⟩).2 = some e) :
    complete
        { RequestHeaders := hdr, RequestVerb := m, RequestURL := u, ResponseStatus := "",
          ResponseHeaders := [], ResponseErr := none,
          Duration := delegateElapsed dg d ⟨m, some u, hdr⟩ }
        (delegatePair dg d ⟨m, some u, hdr⟩).1 (delegatePair dg d ⟨m, some u, hdr⟩).2
      = Except.ok
          { RequestHeaders := hdr, RequestVerb := m, RequestURL := u,
            ResponseStatus := "", ResponseHeaders := [], ResponseErr := some e,
            Duration := delegateElapsed dg d ⟨m, some u, hdr⟩ }
    ∧ (RoundTrip env (NewDebuggingRoundTripper (some dg) w levels) s d
        ⟨m, some u, hdr⟩).result
      = Except.ok ((delegatePair dg d ⟨m, some u, hdr⟩).1, some e)
    ∧ (RoundTrip env (NewDebuggingRoundTripper (some dg) bufferWriter levels) t d
        ⟨m, some u, hdr⟩).sink
      = (RoundTrip env (NewDebuggingRoundTripper (some dg) bufferWriter levels) t d
            ⟨m, some u, hdr⟩).sinkAtCall
        ++ ((if URLTiming ∈ levels then
              m ++ " " ++ u ++ "  in "
                ++ fmt.formatInt (milliseconds (delegateElapsed dg d ⟨m, some u, hdr⟩))
                ++ " milliseconds\n" else "")
          ++ ((if ResponseStatus ∈ levels then
              "Response Status:  in "
                ++ fmt.formatInt (milliseconds (delegateElapsed dg d ⟨m, some u, hdr⟩))
                ++ " milliseconds\n" else "")
          ++ (if ResponseHeaders ∈ levels then "Response Headers:\n" else ""))) := by
  refine ⟨?_, ?_, ?_⟩
  · rw [he]
    rfl
  · rw [RoundTrip_of_error env _ dg s d _ _ e (newRequestInfo_of_URL m u hdr) rfl he]
    show Except.ok (delegatePair dg d ⟨m, some u, hdr⟩)
      = Except.ok ((delegatePair dg d ⟨m, some u, hdr⟩).1, some e)
    rw [← he]
  · rw [RoundTrip_of_error env _ dg t d _ _ e (newRequestInfo_of_URL m u hdr) rfl he]
    have key : emitResponse env bufferWriter
        (NewDebuggingRoundTripper (some dg) bufferWriter levels).levels
        (emitRequest env bufferWriter
          (NewDebuggingRoundTripper (some dg) bufferWriter levels).levels t
          ⟨hdr, m, u, "", [], none, 0⟩)
        { RequestHeaders := hdr, RequestVerb := m, RequestURL := u, ResponseStatus := "",
          ResponseHeaders := [], ResponseErr := some e,
          Duration := delegateElapsed dg d ⟨m, some u, hdr⟩ }
        = emitRequest env bufferWriter
            (NewDebuggingRoundTripper (some dg) bufferWriter levels).levels t
            ⟨hdr, m, u, "", [], none, 0⟩
          ++ responseBlocks env levels m u "" [] (delegateElapsed dg d ⟨m, some u, hdr⟩) :=
      emitResponse_New env (some dg) bufferWriter levels _ _
    rw [responseBlocks_empty_status] at key
    exact key

/-- C7 (witness): a delegate failing with `dial tcp: timeout` after 3.2 ms and
returning no response, the three post-call levels enabled. -/
theorem RoundTrip_delegate_error_witness :
    (RoundTrip listedRuntime
        (NewDebuggingRoundTripper (some (constDelegate none (some "dial tcp: timeout") 3200000))
          bufferWriter [URLTiming, ResponseStatus, ResponseHeaders])
        "" () ⟨"GET", some "http://x/y", []⟩).result
      = Except.ok (none, some "dial tcp: timeout")
    ∧ (RoundTrip listedRuntime
        (NewDebuggingRoundTripper (some (constDelegate none (some "dial tcp: timeout") 3200000))
          bufferWriter [URLTiming, ResponseStatus, ResponseHeaders])
        "" () ⟨"GET", some "http://x/y", []⟩).sink
      = "GET http://x/y  in 3 milliseconds\nResponse Status:  in 3 milliseconds\n"
        ++ "Response Headers:\n" :=
  ⟨(RoundTrip_delegate_error listedRuntime bufferWriter
      [URLTiming, ResponseStatus, ResponseHeaders]
      (constDelegate none (some "dial tcp: timeout") 3200000) "" "" ()
      "GET" "http://x/y" [] "dial tcp: timeout" rfl).2.1,
    (RoundTrip_delegate_error listedRuntime bufferWriter
      [URLTiming, ResponseStatus, ResponseHeaders]
      (constDelegate none (some "dial tcp: timeout") 3200000) "" "" ()
      "GET" "http://x/y" [] "dial tcp: timeout" rfl).2.2.trans rfl⟩

/-! ## C6: milliseconds -/

theorem formatInt_milliseconds (d : time.Duration) (h : 0 ≤ d) :
    fmt.formatInt (milliseconds d) = Nat.repr (d.toNat / 1000000) := by
  obtain ⟨n, rfl⟩ := Int.eq_ofNat_of_zero_le h
  have hm : milliseconds (n : Int) = ((n / 1000000 : Nat) : Int) := by
    unfold milliseconds time.Millisecond
    rw [Int.tdiv_eq_ediv (by omega) (by omega)]
    norm_cast
  rw [hm]
  unfold fmt.formatInt
  rw [if_neg (by omega)]
  rfl

theorem milliseconds_bounds (d : Int) (h : 0 ≤ d) :
    milliseconds d = d / 1000000 ∧ milliseconds d * 1000000 ≤ d
      ∧ d < (milliseconds d + 1) * 1000000 := by
  have hm : milliseconds d = d / 1000000 := by
    unfold milliseconds time.Millisecond
    exact Int.tdiv_eq_ediv h (by omega)
  rw [hm]
  refine ⟨rfl, ?_, ?_⟩ <;> omega

theorem milliseconds_ten (d : Int) (h1 : 10000000 ≤ d) (h2 : d < 11000000) :
    milliseconds d = 10 := by
  rw [(milliseconds_bounds d (by omega)).1]
  omega

/-- C6: for every record whose elapsed time `d` is non-negative, the number of
milliseconds printed is the floor of `d / 1000000`: it satisfies
`N * 1000000 ≤ d < (N + 1) * 1000000`; the `URLTiming` line and the
`ResponseStatus` line written by one call carry the same decimal numeral of
`N`, on every runtime; and every `d` from 10 ms up to, but excluding, 11 ms
prints `10`. -/
theorem milliseconds_truncates (env : Runtime) (r : requestInfo) (h : 0 ≤ r.Duration) :
    milliseconds r.Duration * 1000000 ≤ r.Duration
    ∧ r.Duration < (milliseconds r.Duration + 1) * 1000000
    ∧ milliseconds r.Duration = r.Duration / 1000000
    ∧ emitResponse env bufferWriter (fun k => k == URLTiming || k == ResponseStatus) "" r
      = r.RequestVerb ++ " " ++ r.RequestURL ++ " " ++ r.ResponseStatus ++ " in "
          ++ Nat.repr (r.Duration.toNat / 1000000) ++ " milliseconds\n"
        ++ ("Response Status: " ++ r.ResponseStatus ++ " in "
          ++ Nat.repr (r.Duration.toNat / 1000000) ++ " milliseconds\n")
    ∧ (10000000 ≤ r.Duration → r.Duration < 11000000 →
        milliseconds r.Duration = 10 ∧ fmt.formatInt (milliseconds r.Duration) = "10") := by
  obtain ⟨hm, hlo, hhi⟩ := milliseconds_bounds r.Duration h
  refine ⟨hlo, hhi, hm, ?_, ?_⟩
  · rw [emitResponse_buffer]
    simp only [URLTiming, ResponseStatus, ResponseHeaders, urlTimingLine, responseStatusLine,
      formatInt_milliseconds r.Duration h]
    simp
  · intro h1 h2
    have h10 : milliseconds r.Duration = 10 := milliseconds_ten r.Duration h1 h2
    refine ⟨h10, ?_⟩
    rw [h10]
    decide

/-- C6 (witness): an elapsed time of 10.999999 ms prints `10`. -/
theorem milliseconds_truncates_witness :
    (0 : Int) ≤ (10999999 : Int)
    ∧ fmt.formatInt (milliseconds (10999999 : Int)) = "10"
    ∧ emitResponse listedRuntime bufferWriter (fun k => k == URLTiming || k == ResponseStatus) ""
        ⟨[], "GET", "http://x/y", "200 OK", [], none, 10999999⟩
      = "GET http://x/y 200 OK in 10 milliseconds\n"
        ++ "Response Status: 200 OK in 10 milliseconds\n" :=
  ⟨by decide,
    ((milliseconds_truncates listedRuntime
      ⟨[], "GET", "http://x/y", "200 OK", [], none, 10999999⟩
      (by decide)).2.2.2.2 (by decide) (by decide)).2,
    (milliseconds_truncates listedRuntime
      ⟨[], "GET", "http://x/y", "200 OK", [], none, 10999999⟩
      (by decide)).2.2.2.1.trans rfl⟩


/-! ## C4: the curl command -/

theorem appendEscapedRune_append (tbl : Char → Bool) (buf : List Char) (r q : Char) :
    strconv.appendEscapedRune tbl buf r q = buf ++ strconv.appendEscapedRune tbl [] r q := by
  unfold strconv.appendEscapedRune
  by_cases h0 : r = q ∨ r = Char.ofNat 92
  · rw [if_pos h0, if_pos h0]
    rfl
  rw [if_neg h0, if_neg h0]
  by_cases h1 : strconv.IsPrint tbl r = true
  · rw [if_pos h1, if_pos h1]
    rfl
  rw [if_neg h1, if_neg h1]
  by_cases h2 : r.toNat = 7
  · rw [if_pos h2, if_pos h2]
    rfl
  rw [if_neg h2, if_neg h2]
  by_cases h3 : r.toNat = 8
  · rw [if_pos h3, if_pos h3]
    rfl
  rw [if_neg h3, if_neg h3]
  by_cases h4 : r.toNat = 12
  · rw [if_pos h4, if_pos h4]
    rfl
  rw [if_neg h4, if_neg h4]
  by_cases h5 : r.toNat = 10
  · rw [if_pos h5, if_pos h5]
    rfl
  rw [if_neg h5, if_neg h5]
  by_cases h6 : r.toNat = 13
  · rw [if_pos h6, if_pos h6]
    rfl
  rw [if_neg h6, if_neg h6]
  by_cases h7 : r.toNat = 9
  · rw [if_pos h7, if_pos h7]
    rfl
  rw [if_neg h7, if_neg h7]
  by_cases h8 : r.toNat = 11
  · rw [if_pos h8, if_pos h8]
    rfl
  rw [if_neg h8, if_neg h8]
  by_cases h9 : r.toNat < 0x20 ∨ r.toNat = 0x7f
  · rw [if_pos h9, if_pos h9]
    rfl
  rw [if_neg h9, if_neg h9]
  by_cases h10 : r.toNat < 0x10000
  · rw [if_pos h10, if_pos h10]
    rfl
  rw [if_neg h10, if_neg h10]
  rfl

theorem foldl_appendEscapedRune (tbl : Char → Bool) (l : List Char) (buf : List Char) :
    l.foldl (fun buf r => strconv.appendEscapedRune tbl buf r (Char.ofNat 34)) buf
      = buf ++ l.flatMap (fun r => strconv.appendEscapedRune tbl [] r (Char.ofNat 34)) := by
  induction l generalizing buf with
  | nil => simp
  | cons c cs ih =>
    rw [List.foldl_cons, ih, appendEscapedRune_append, List.flatMap_cons, List.append_assoc]

theorem Quote_eq (tbl : Char → Bool) (s : String) :
    strconv.Quote tbl s = "\"" ++ String.join (s.toList.map (strconv.quoteRune tbl)) ++ "\"" := by
  unfold strconv.Quote
  rw [foldl_appendEscapedRune]
  apply String.ext
  simp [String.data_append, String.data_join, strconv.quoteRune, List.flatMap_def,
    Function.comp_def]

theorem quoteRune_plain (tbl : Char → Bool) (c : Char) (h : plainRune tbl c = true) :
    strconv.quoteRune tbl c = String.singleton c := by
  simp only [plainRune, Bool.and_eq_true, bne_iff_ne, ne_eq] at h
  obtain ⟨⟨hp, hq⟩, hb⟩ := h
  unfold strconv.quoteRune strconv.appendEscapedRune
  rw [if_neg (by simp [hq, hb]), if_pos hp]
  rfl

theorem join_map_singleton (l : List Char) : String.join (l.map String.singleton) = ⟨l⟩ := by
  apply String.ext
  induction l with
  | nil => rfl
  | cons c cs ih =>
    rw [List.map_cons, join_cons, String.data_append, ih]
    rfl

theorem Quote_plain (tbl : Char → Bool) (s : String)
    (h : ∀ c ∈ s.toList, plainRune tbl c = true) :
    strconv.Quote tbl s = "\"" ++ s ++ "\"" := by
  rw [Quote_eq, List.map_congr_left (fun c hc => quoteRune_plain tbl c (h c hc)),
    join_map_singleton]
  rfl

theorem quotedSegments_plain (tbl : Char → Bool) (h : http.Header)
    (hp : plainHeader tbl h = true) :
    quotedSegments tbl h = verbatimSegments h := by
  unfold quotedSegments verbatimSegments
  unfold plainHeader at hp
  rw [List.all_eq_true] at hp
  apply List.flatMap_congr
  intro kv hkv
  have hkv2 := hp kv hkv
  rw [Bool.and_eq_true, List.all_eq_true, List.all_eq_true] at hkv2
  apply List.map_congr_left
  intro value hvalue
  have hv := hkv2.2 value hvalue
  rw [List.all_eq_true] at hv
  rw [Quote_plain]
  · simp only [String.append_assoc]
  · intro c hc
    simp only [String.toList, String.data_append, List.mem_append] at hc
    rcases hc with (hc | hc) | hc
    · exact hkv2.1 c hc
    · have : c = ':' ∨ c = ' ' := by simpa using hc
      rcases this with rfl | rfl <;> rfl
    · exact hv c hc

theorem plainHeader_visit (tbl : Char → Bool) (o : RangeOrder) (h : http.Header)
    (hp : plainHeader tbl h = true) : plainHeader tbl (o.visit h) = true := by
  unfold plainHeader at hp ⊢
  rw [List.all_eq_true] at hp ⊢
  intro kv hkv
  exact hp kv ((o.perm h).mem_iff.mp hkv)

theorem length_quotedSegments (tbl : Char → Bool) (h : http.Header) :
    (quotedSegments tbl h).length = valueCount h := by
  unfold quotedSegments valueCount
  induction h with
  | nil => rfl
  | cons kv rest ih => simp [List.flatMap_cons, ih]

/-- C4 (counterexample): a header value that contains a double quote, or a
backslash, is not copied verbatim: `%q` writes a backslash before it, so the
command differs from the one with the verbatim segment. -/
theorem toCurl_escapes_double_quote :
    toCurl latin1Only RangeOrder.listed
        ⟨[("A", ["a\"b"])], "GET", "http://x/y", "", [], none, 0⟩
      = "curl -k -v -XGET  -H \"A: a\\\"b\" http://x/y"
    ∧ toCurl latin1Only RangeOrder.listed
        ⟨[("A", ["a\"b"])], "GET", "http://x/y", "", [], none, 0⟩
      ≠ "curl -k -v -X" ++ "GET" ++ " " ++ String.join (verbatimSegments [("A", ["a\"b"])])
          ++ " " ++ "http://x/y"
    ∧ toCurl latin1Only RangeOrder.listed
        ⟨[("A", ["a\\b"])], "GET", "http://x/y", "", [], none, 0⟩
      = "curl -k -v -XGET  -H \"A: a\\\\b\" http://x/y"
    ∧ toCurl latin1Only RangeOrder.listed
        ⟨[("A", ["a\\b"])], "GET", "http://x/y", "", [], none, 0⟩
      ≠ "curl -k -v -X" ++ "GET" ++ " " ++ String.join (verbatimSegments [("A", ["a\\b"])])
          ++ " " ++ "http://x/y" := by
  decide

/-- C4 (amended): for every record and every order in which the `range` of
`toCurl` visits the header map, `toCurl` returns `curl -k -v -X`, the method, a
space, the flags, a space and the URL text as it is (it is not quoted), where
the flags are the concatenation, over every header key in that order and every
value under it, of ` -H ` followed by the Go-quoted (`strconv.Quote`) text
`<key>: <value>`.
The segments are a rearrangement of one segment per header value, so their
number is the total number of header values. The Go-quoted text is an opening
double quote, the rendering of each rune, and a closing double quote; a double
quote is rendered as backslash and double quote, a backslash as two
backslashes, any other printable rune as itself, the runes 7, 8, 12, 10, 13,
9, 11 as `\a`, `\b`, `\f`, `\n`, `\r`, `\t`, `\v`, any other rune below 0x20
and the rune 0x7f as `\x` and two hexadecimal digits, any other non-printable
rune below 0x10000 as `\u` and four hexadecimal digits, and a non-printable
rune from 0x10000 on as `\U` and eight hexadecimal digits. When all keys and
values consist of printable runes other than the double quote and the
backslash, each segment is ` -H "<key>: <value>"` with key and value verbatim.
Headers `A: [1]`, `B: [2, 3]` give exactly the three flags ` -H "A: 1"`,
` -H "B: 2"`, ` -H "B: 3"`. -/
theorem toCurl_format (tbl : Char → Bool) (o : RangeOrder) (r : requestInfo) :
    toCurl tbl o r
      = "curl -k -v -X" ++ r.RequestVerb ++ " "
          ++ String.join (quotedSegments tbl (o.visit r.RequestHeaders)) ++ " "
          ++ r.RequestURL
    ∧ List.Perm (quotedSegments tbl (o.visit r.RequestHeaders))
        (quotedSegments tbl r.RequestHeaders)
    ∧ (quotedSegments tbl (o.visit r.RequestHeaders)).length = valueCount r.RequestHeaders
    ∧ (plainHeader tbl r.RequestHeaders = true →
        quotedSegments tbl (o.visit r.RequestHeaders)
          = verbatimSegments (o.visit r.RequestHeaders)
        ∧ toCurl tbl o r
          = "curl -k -v -X" ++ r.RequestVerb ++ " "
              ++ String.join (verbatimSegments (o.visit r.RequestHeaders)) ++ " "
              ++ r.RequestURL)
    ∧ quotedSegments tbl [("A", ["1"]), ("B", ["2", "3"])]
      = [" -H \"A: 1\"", " -H \"B: 2\"", " -H \"B: 3\""]
    ∧ (∀ s : String,
        strconv.Quote tbl s
          = "\"" ++ String.join (s.toList.map (strconv.quoteRune tbl)) ++ "\"")
    ∧ strconv.quoteRune tbl (Char.ofNat 34) = "\\\""
    ∧ strconv.quoteRune tbl (Char.ofNat 92) = "\\\\"
    ∧ (∀ c : Char, plainRune tbl c = true → strconv.quoteRune tbl c = String.singleton c)
    ∧ strconv.quoteRune tbl (Char.ofNat 7) = "\\a"
    ∧ strconv.quoteRune tbl (Char.ofNat 8) = "\\b"
    ∧ strconv.quoteRune tbl (Char.ofNat 12) = "\\f"
    ∧ strconv.quoteRune tbl (Char.ofNat 10) = "\\n"
    ∧ strconv.quoteRune tbl (Char.ofNat 13) = "\\r"
    ∧ strconv.quoteRune tbl (Char.ofNat 9) = "\\t"
    ∧ strconv.quoteRune tbl (Char.ofNat 11) = "\\v"
    ∧ (∀ c : Char, (c.toNat < 0x20 ∨ c.toNat = 0x7f) → (c.toNat < 7 ∨ 13 < c.toNat) →
        strconv.quoteRune tbl c
          = ⟨[Char.ofNat 92, 'x', strconv.hexDigit (c.toNat / 16),
              strconv.hexDigit (c.toNat % 16)]⟩)
    ∧ (∀ c : Char, strconv.IsPrint tbl c = false → 0x7f < c.toNat → c.toNat < 0x10000 →
        strconv.quoteRune tbl c
          = ⟨[Char.ofNat 92, 'u', strconv.hexDigit (c.toNat / 4096),
              strconv.hexDigit (c.toNat / 256), strconv.hexDigit (c.toNat / 16),
              strconv.hexDigit c.toNat]⟩)
    ∧ (∀ c : Char, strconv.IsPrint tbl c = false → 0x10000 ≤ c.toNat →
        strconv.quoteRune tbl c
          = ⟨[Char.ofNat 92, 'U', strconv.hexDigit (c.toNat / 268435456),
              strconv.hexDigit (c.toNat / 16777216), strconv.hexDigit (c.toNat / 1048576),
              strconv.hexDigit (c.toNat / 65536), strconv.hexDigit (c.toNat / 4096),
              strconv.hexDigit (c.toNat / 256), strconv.hexDigit (c.toNat / 16),
              strconv.hexDigit c.toNat]⟩)
    ∧ (∀ c : Char, c.toNat ≤ 0xFF →
        (strconv.IsPrint tbl c = true
          ↔ (0x20 ≤ c.toNat ∧ c.toNat ≤ 0x7E) ∨ (0xA1 ≤ c.toNat ∧ c.toNat ≠ 0xAD)))
    ∧ (∀ c : Char, 0xFF < c.toNat → strconv.IsPrint tbl c = tbl c) := by
  refine ⟨toCurl_eq tbl o r, quotedSegments_perm tbl o _, ?_, ?_, ?_, Quote_eq tbl, rfl, rfl,
    quoteRune_plain tbl, rfl, rfl, rfl, rfl, rfl, rfl, rfl, ?_, ?_, ?_, ?_, ?_⟩
  · rw [(quotedSegments_perm tbl o _).length_eq, length_quotedSegments]
  · intro hp
    have hq := quotedSegments_plain tbl _ (plainHeader_visit tbl o _ hp)
    exact ⟨hq, by rw [toCurl_eq, hq]⟩
  · rw [quotedSegments_plain tbl _ (by rfl)]
    rfl
  · intro c hc hn
    have hlt : c.toNat ≤ 0xFF := by omega
    have hnp : strconv.IsPrint tbl c = false := by
      unfold strconv.IsPrint
      rw [if_pos hlt, if_neg (by omega), if_neg (by omega)]
    have hq : ¬ (c = Char.ofNat 34 ∨ c = Char.ofNat 92) := by
      rintro (rfl | rfl)
      · revert hc; decide
      · revert hc; decide
    unfold strconv.quoteRune strconv.appendEscapedRune
    rw [if_neg hq, hnp]
    simp only [Bool.false_eq_true, if_false]
    rw [if_neg (by omega), if_neg (by omega), if_neg (by omega), if_neg (by omega),
      if_neg (by omega), if_neg (by omega), if_neg (by omega), if_pos hc]
    rfl
  · intro c hnp h1 h2
    have hq : ¬ (c = Char.ofNat 34 ∨ c = Char.ofNat 92) := by
      rintro (rfl | rfl)
      · revert h1; decide
      · revert h1; decide
    unfold strconv.quoteRune strconv.appendEscapedRune
    rw [if_neg hq, hnp]
    simp only [Bool.false_eq_true, if_false]
    rw [if_neg (by omega), if_neg (by omega), if_neg (by omega), if_neg (by omega),
      if_neg (by omega), if_neg (by omega), if_neg (by omega), if_neg (by omega), if_pos h2]
    rfl
  · intro c hnp h1
    have hq : ¬ (c = Char.ofNat 34 ∨ c = Char.ofNat 92) := by
      rintro (rfl | rfl)
      · revert h1; decide
      · revert h1; decide
    unfold strconv.quoteRune strconv.appendEscapedRune
    rw [if_neg hq, hnp]
    simp only [Bool.false_eq_true, if_false]
    rw [if_neg (by omega), if_neg (by omega), if_neg (by omega), if_neg (by omega),
      if_neg (by omega), if_neg (by omega), if_neg (by omega), if_neg (by omega),
      if_neg (by omega)]
    rfl
  · intro c hc
    unfold strconv.IsPrint
    rw [if_pos hc]
    by_cases h1 : 0x20 ≤ c.toNat ∧ c.toNat ≤ 0x7E
    · rw [if_pos h1]
      simp only [true_iff]
      exact Or.inl h1
    · rw [if_neg h1]
      by_cases h2 : 0xA1 ≤ c.toNat ∧ c.toNat ≤ 0xFF
      · rw [if_pos h2]
        simp only [bne_iff_ne, ne_eq]
        constructor
        · intro h3
          exact Or.inr ⟨h2.1, h3⟩
        · rintro (h3 | h3)
          · exact absurd h3 h1
          · exact h3.2
      · rw [if_neg h2]
        simp only [Bool.false_eq_true, false_iff]
        rintro (h3 | h3)
        · exact h1 h3
        · exact h2 ⟨h3.1, hc⟩
  · intro c hc
    unfold strconv.IsPrint
    rw [if_neg (by omega)]

/-- C4 (witness): the headers `A: [1]`, `B: [2, 3]` on `GET http://x/y`, the
`range` visiting `B` before `A`; a value with a newline, a backslash and a
double quote; and a URL with a query, which is written as it is, without
quotes. -/
theorem toCurl_format_witness :
    plainHeader latin1Only [("A", ["1"]), ("B", ["2", "3"])] = true
    ∧ toCurl latin1Only RangeOrder.reversed
        ⟨[("A", ["1"]), ("B", ["2", "3"])], "GET", "http://x/y", "", [], none, 0⟩
      = "curl -k -v -XGET " ++ " -H \"B: 2\"" ++ " -H \"B: 3\"" ++ " -H \"A: 1\""
          ++ " http://x/y"
    ∧ toCurl latin1Only RangeOrder.listed
        ⟨[("A", ["x\ny\\z\"w"])], "GET", "http://x/y", "", [], none, 0⟩
      = "curl -k -v -XGET " ++ " -H \"A: x\\ny\\\\z\\\"w\"" ++ " http://x/y"
    ∧ toCurl latin1Only RangeOrder.listed
        ⟨[], "GET", "http://x/y?a=1&b=2", "", [], none, 0⟩
      = "curl -k -v -XGET  http://x/y?a=1&b=2"
    ∧ strconv.quoteRune latin1Only (Char.ofNat 1) = "\\x01"
    ∧ strconv.quoteRune latin1Only (Char.ofNat 0x1f) = "\\x1f"
    ∧ strconv.quoteRune latin1Only (Char.ofNat 0x7f) = "\\x7f"
    ∧ strconv.quoteRune latin1Only (Char.ofNat 0x85) = "\\u0085"
    ∧ strconv.quoteRune latin1Only (Char.ofNat 0xad) = "\\u00ad"
    ∧ strconv.quoteRune latin1Only (Char.ofNat 0x2028) = "\\u2028"
    ∧ strconv.quoteRune latin1Only (Char.ofNat 0xe0001) = "\\U000e0001"
    ∧ strconv.quoteRune latin1Only (Char.ofNat 0xe9) = String.singleton (Char.ofNat 0xe9) :=
  ⟨by decide,
    ((toCurl_format latin1Only RangeOrder.reversed
      ⟨[("A", ["1"]), ("B", ["2", "3"])], "GET", "http://x/y", "", [], none, 0⟩).2.2.2.1
        (by decide)).2.trans rfl,
    (toCurl_format latin1Only RangeOrder.listed
      ⟨[("A", ["x\ny\\z\"w"])], "GET", "http://x/y", "", [], none, 0⟩).1.trans rfl,
    (toCurl_format latin1Only RangeOrder.listed
      ⟨[], "GET", "http://x/y?a=1&b=2", "", [], none, 0⟩).1.trans rfl,
    by decide, by decide, by decide, by decide, by decide, by decide, by decide, by decide⟩

/-! ## C5: spacing of the curl line -/

theorem join_spaced (l : List String) :
    String.join (l.map (fun t => " " ++ t)) ++ " "
      = " " ++ String.join (l.map (fun t => t ++ " ")) := by
  induction l with
  | nil => rfl
  | cons t ts ih =>
    simp only [List.map_cons, join_cons, String.append_assoc, ih]

theorem quotedSegments_eq_tokens (tbl : Char → Bool) (h : http.Header) :
    quotedSegments tbl h = (curlTokens tbl h).map (fun t => " " ++ t) := by
  unfold quotedSegments curlTokens
  induction h with
  | nil => rfl
  | cons kv rest ih =>
    rw [List.flatMap_cons, List.flatMap_cons, List.map_append, ← ih, List.map_map]
    congr 1

/-- C5 (counterexample): the `CurlCommand` line has two consecutive spaces
after `-X<METHOD>`, before the first `-H` and, without headers, before the
URL. -/
theorem curl_line_double_space :
    (RoundTrip listedRuntime
        (NewDebuggingRoundTripper (some (constDelegate none (some "refused") 0)) bufferWriter
          [CurlCommand])
        "" () ⟨"GET", some "http://x/y", [("A", ["1"])]⟩).sink
      = "curl -k -v -XGET  -H \"A: 1\" http://x/y\n"
    ∧ (RoundTrip listedRuntime
        (NewDebuggingRoundTripper (some (constDelegate none (some "refused") 0)) bufferWriter
          [CurlCommand])
        "" () ⟨"GET", some "http://x/y", [("A", ["1"])]⟩).sink
      ≠ "curl -k -v -XGET -H \"A: 1\" http://x/y\n"
    ∧ (RoundTrip listedRuntime
        (NewDebuggingRoundTripper (some (constDelegate none (some "refused") 0)) bufferWriter
          [CurlCommand])
        "" () ⟨"GET", some "http://x/y", []⟩).sink
      = "curl -k -v -XGET  http://x/y\n"
    ∧ (RoundTrip listedRuntime
        (NewDebuggingRoundTripper (some (constDelegate none (some "refused") 0)) bufferWriter
          [CurlCommand])
        "" () ⟨"GET", some "http://x/y", []⟩).sink
      ≠ "curl -k -v -XGET http://x/y\n" := by
  decide

/-- C5 (amended): for every runtime, delegate and request whose URL is not nil,
the line emitted for the `CurlCommand` level is `curl -k -v -X<METHOD>`, two
spaces, then every `-H` token (`-H ` followed by the Go-quoted `<K>: <V>`, in
the order in which the `range` of `toCurl` visits the headers) followed by one
space, then the URL and a single newline: the separators are single spaces
except the one after `-X<METHOD>`, which is two spaces, with headers and
without. On a request whose URL is nil no line is emitted. -/
theorem curl_line_format {δ : Type} (env : Runtime) (rt : Option (http.RoundTripper δ))
    (s : String) (d : δ) (m u : String) (hdr : http.Header) :
    (RoundTrip env (NewDebuggingRoundTripper rt bufferWriter [CurlCommand]) s d
        ⟨m, some u, hdr⟩).sinkAtCall
      = s ++ ("curl -k -v -X" ++ m ++ "  "
          ++ String.join
              ((curlTokens env.printTable (env.curlRange.visit hdr)).map (fun t => t ++ " "))
          ++ u ++ "\n")
    ∧ (RoundTrip env (NewDebuggingRoundTripper rt bufferWriter [CurlCommand]) s d
        ⟨m, none, hdr⟩).sinkAtCall = s
    ∧ (RoundTrip env (NewDebuggingRoundTripper rt bufferWriter [CurlCommand]) s d
        ⟨m, none, hdr⟩).sink = s := by
  have hline : "curl -k -v -X" ++ m ++ " "
        ++ String.join (quotedSegments env.printTable (env.curlRange.visit hdr)) ++ " " ++ u
      = "curl -k -v -X" ++ m ++ "  "
          ++ String.join
              ((curlTokens env.printTable (env.curlRange.visit hdr)).map (fun t => t ++ " "))
          ++ u := by
    rw [quotedSegments_eq_tokens]
    have h2 : ("  " : String) = " " ++ " " := by decide
    rw [h2]
    simp only [String.append_assoc]
    rw [← String.append_assoc (String.join _) " " u, join_spaced]
    simp only [String.append_assoc]
  have hblocks : requestBlocks env [CurlCommand] m u hdr
      = "curl -k -v -X" ++ m ++ " "
        ++ String.join (quotedSegments env.printTable (env.curlRange.visit hdr)) ++ " " ++ u
        ++ "\n" := by
    simp [requestBlocks, JustURL, CurlCommand, RequestHeaders]
  have hpre : (RoundTrip env (NewDebuggingRoundTripper rt bufferWriter [CurlCommand]) s d
      ⟨m, some u, hdr⟩).sinkAtCall = s ++ requestBlocks env [CurlCommand] m u hdr := by
    have key := emitRequest_New env rt bufferWriter [CurlCommand] s ⟨hdr, m, u, "", [], none, 0⟩
    rw [← key]
    cases rt with
    | none => rfl
    | some dg =>
      by_cases h : honoursContract (delegatePair dg d ⟨m, some u, hdr⟩)
      · rw [RoundTrip_of_contract env _ dg s d m u hdr rfl h]
        rfl
      · rw [RoundTrip_of_nil_nil env _ dg s d _ _ (newRequestInfo_of_URL m u hdr) rfl
          (eq_nil_nil_of_not_contract h)]
        rfl
  refine ⟨?_, rfl, rfl⟩
  rw [hpre, hblocks, hline]

end httpdebugger
